import Mathlib

/-!
Shallow embedding of the pyHydrabus protocol handlers (MMC, NFC, SDIO, SWD).

The serial connection to the Hydrabus adapter is modelled as a `Conn` record:
two scripted input streams (`rxBytes` for byte reads, `rxBits` for single-bit
reads) and an output trace `tx` of everything the handler writes on the wire.
Python's `int.to_bytes` raises `OverflowError` when the value does not fit;
exceptions unwind but the bytes already written stay on the wire, so errors
carry the `Conn` at the moment they are raised.  The unbounded WAIT-retry
recursion in `swd.py` is modelled with an explicit fuel parameter.
-/

namespace PyHydrabus

/-- One write-side event on the serial wire: a byte write, a bit-count write
(`write_bits`), or idle clock pulses (`clocks`). -/
inductive WireEvent where
  | wbytes (bs : List Nat)
  | wbits (bs : List Nat) (n : Nat)
  | wclocks (n : Nat)
deriving DecidableEq, Repr

/-- The serial connection: scripted responder streams plus the transcript of
everything written by the host. -/
structure Conn where
  rxBytes : List Nat
  rxBits : List Nat
  tx : List WireEvent
deriving DecidableEq, Repr

/-- Failure modes: a read that the scripted stream cannot serve (Timeout),
Python `OverflowError` from `int.to_bytes`, the SWD `ValueError` carrying the
raw acknowledgment status, and fuel exhaustion of the modelled recursion.
Each error carries the connection state at the moment it was raised. -/
inductive Err where
  | timeout (c : Conn)
  | overflow (c : Conn)
  | protocol (status : Nat) (c : Conn)
  | outOfFuel (c : Conn)
deriving DecidableEq, Repr

deriving instance DecidableEq for Except

/-- Little-endian base-256 digits, `len` of them. -/
def natToLE : Nat → Nat → List Nat
  | 0, _ => []
  | len + 1, v => v % 256 :: natToLE len (v / 256)

/-- Python `v.to_bytes(len, byteorder="little")`: raises `OverflowError`
when the value does not fit in `len` bytes. -/
def toBytesLE (v len : Nat) (c : Conn) : Except Err (List Nat) :=
  if v < 256 ^ len then .ok (natToLE len v) else .error (.overflow c)

/-- Python `v.to_bytes(len, byteorder="big")`. -/
def toBytesBE (v len : Nat) (c : Conn) : Except Err (List Nat) :=
  if v < 256 ^ len then .ok ((natToLE len v).reverse) else .error (.overflow c)

/-- Python `int.from_bytes(bs, byteorder="little")`. -/
def fromBytesLE (bs : List Nat) : Nat :=
  bs.foldr (fun b acc => acc * 256 + b) 0

/-- Python `bin(n).count("1")`: the number of `1` characters in the binary
rendering of `n`. -/
def popCount (n : Nat) : Nat :=
  (Nat.toDigits 2 n).count '1'

/-- `self._hydrabus.write(bs)` / `RawWire.write`: append the bytes to the
wire transcript. -/
def Conn.writeBytes (c : Conn) (bs : List Nat) : Conn :=
  { c with tx := c.tx ++ [.wbytes bs] }

/-- `RawWire.clocks(n)`: emit `n` idle clock pulses. -/
def Conn.clocks (c : Conn) (n : Nat) : Conn :=
  { c with tx := c.tx ++ [.wclocks n] }

/-- `RawWire.write_bits(bs, n)`. -/
def Conn.writeBits (c : Conn) (bs : List Nat) (n : Nat) : Conn :=
  { c with tx := c.tx ++ [.wbits bs n] }

/-- `self._hydrabus.read(n)`: blocking exact-length read; the scripted
stream running short is the connection timeout. -/
def Conn.readBytes (c : Conn) (n : Nat) : Except Err (List Nat × Conn) :=
  if n ≤ c.rxBytes.length then
    .ok (c.rxBytes.take n, { c with rxBytes := c.rxBytes.drop n })
  else .error (.timeout c)

/-- `RawWire.read_bit`: read one bit from the wire. -/
def Conn.readBit (c : Conn) : Except Err (Nat × Conn) :=
  match c.rxBits with
  | [] => .error (.timeout c)
  | b :: rest => .ok (b, { c with rxBits := rest })

namespace SWD

/-- `SWD._apply_dp_parity`: count the set bits among bits 1-4 of the command
byte; if odd, set bit 5. -/
def apply_dp_parity (value : Nat) : Nat :=
  let tmp := value &&& 0b00011110
  if popCount tmp % 2 = 1 then value ||| (1 <<< 5) else value

/-- `SWD._sync`: write a single zero byte. -/
def sync (c : Conn) : Conn :=
  c.writeBytes [0]

/-- The three-bit acknowledgment read shared by `read_dp` and `write_dp`:
`for i in range(3): status += ord(self.read_bit()) << i`. -/
def read_status3 (c : Conn) : Except Err (Nat × Conn) := do
  let (b0, c) ← c.readBit
  let (b1, c) ← c.readBit
  let (b2, c) ← c.readBit
  .ok (b0 + b1 * 2 + b2 * 4, c)

/-- The tail of `SWD.write_dp`: send the 4 little-endian value bytes followed
by the value's parity bit merged with the sync clocks. -/
def write_dp_tail (value : Nat) (c : Conn) : Except Err Conn := do
  let vb ← toBytesLE value 4 c
  let c := c.writeBytes vb
  if popCount value % 2 = 1 then .ok (c.writeBytes [1]) else .ok (c.writeBytes [0])

/-- `SWD.write_dp(addr, value, to_ap=0, ignore_status=False)`.  The source
recurses without bound on a WAIT status; the extra `fuel` argument only
bounds that recursion. -/
def write_dp : Nat → Nat → Nat → Nat → Bool → Conn → Except Err Conn
  | 0, _, _, _, _, c => .error (.outOfFuel c)
  | fuel + 1, addr, value, to_ap, ignore_status, c => do
    let CMD := apply_dp_parity (0x81 ||| to_ap <<< 1 ||| (addr &&& 0b1100) <<< 1)
    let cb ← toBytesLE CMD 1 c
    let c := c.writeBytes cb
    let (status, c) ← read_status3 c
    let c := c.clocks 2
    if ignore_status then
      write_dp_tail value c
    else if status = 2 then
      let c := sync c
      let c ← write_dp fuel 0 0x1F 0 false c
      write_dp fuel addr value to_ap false c
    else if status ≠ 1 then
      .error (.protocol status (sync c))
    else
      write_dp_tail value c

/-- `SWD.read_dp(addr, to_ap=0)`, with the WAIT-retry recursion bounded by
`fuel`. -/
def read_dp : Nat → Nat → Nat → Conn → Except Err (Nat × Conn)
  | 0, _, _, c => .error (.outOfFuel c)
  | fuel + 1, addr, to_ap, c => do
    let CMD := apply_dp_parity (0x85 ||| to_ap <<< 1 ||| (addr &&& 0b1100) <<< 1)
    let cb ← toBytesLE CMD 1 c
    let c := c.writeBytes cb
    let (status, c) ← read_status3 c
    if status = 1 then
      let (bs, c) ← c.readBytes 4
      .ok (fromBytesLE bs, sync c)
    else if status = 2 then
      let c := sync c
      let c ← write_dp fuel 0 0x1F 0 false c
      read_dp fuel addr to_ap c
    else
      .error (.protocol status (sync c))

/-- `SWD.read_ap(address, bank)`: SELECT write, dummy AP read, RDBUFF read. -/
def read_ap (fuel address bank : Nat) (c : Conn) : Except Err (Nat × Conn) := do
  let select_reg := address <<< 24 ||| (bank &&& 0b11110000)
  let c ← write_dp fuel 8 select_reg 0 false c
  let (_, c) ← read_dp fuel (bank &&& 0b1100) 1 c
  read_dp fuel 0xC 0 c

end SWD

namespace MMC

/-- `MMC._configure_port`: send `0x80 | config`, expect a single `0x01`
acknowledgment; on anything else log an error and report `False`. -/
def configure_port (config : Nat) (c : Conn) : Except Err (Bool × Conn) := do
  let CMD := 0b10000000 ||| config
  let cb ← toBytesBE CMD 1 c
  let c := c.writeBytes cb
  let (bs, c) ← c.readBytes 1
  .ok (bs = [1], c)

/-- The `MMC.bus_width` property setter.  Python `config & ~1` clears bit 0 of
the cached bitfield, written here as `config / 2 * 2`; the `Bool` in the
result records whether the invalid-value notice was printed.  Note the
source calls `_configure_port` on every path, the invalid one included. -/
def bus_width_set (config value : Nat) (c : Conn) : Except Err (Nat × Bool × Conn) := do
  let (config, printed) :=
    if value = 1 then (config / 2 * 2, false)
    else if value = 4 then (config ||| 1, false)
    else (config, true)
  let (_, c) ← configure_port config c
  .ok (config, printed, c)

/-- `MMC.write(data, block_num)`: command `0x05`, 4 big-endian block-number
bytes, the payload verbatim, then one status byte; `True` iff it is 1. -/
def write (data : List Nat) (block_num : Nat) (c : Conn) : Except Err (Bool × Conn) := do
  let cb ← toBytesBE 0b00000101 1 c
  let c := c.writeBytes cb
  let bn ← toBytesBE block_num 4 c
  let c := c.writeBytes bn
  let c := c.writeBytes data
  let (sb, c) ← c.readBytes 1
  .ok (fromBytesLE sb = 1, c)

/-- `MMC.read(block_num)`: command `0x04`, 4 big-endian block-number bytes,
one status byte; the 512-byte payload is read only when the status is 1,
otherwise the result is the empty byte string. -/
def read (block_num : Nat) (c : Conn) : Except Err (List Nat × Conn) := do
  let cb ← toBytesBE 0b00000100 1 c
  let c := c.writeBytes cb
  let bn ← toBytesBE block_num 4 c
  let c := c.writeBytes bn
  let (sb, c) ← c.readBytes 1
  if fromBytesLE sb = 1 then
    let (d, c) ← c.readBytes 512
    .ok (d, c)
  else
    .ok ([], c)

end MMC

namespace SDIO

/-- `SDIO._configure_port` (same body as the MMC one). -/
def configure_port (config : Nat) (c : Conn) : Except Err (Bool × Conn) := do
  let CMD := 0b10000000 ||| config
  let cb ← toBytesBE CMD 1 c
  let c := c.writeBytes cb
  let (bs, c) ← c.readBytes 1
  .ok (bs = [1], c)

/-- The `SDIO.bus_width` property setter (same body as the MMC one). -/
def bus_width_set (config value : Nat) (c : Conn) : Except Err (Nat × Bool × Conn) := do
  let (config, printed) :=
    if value = 1 then (config / 2 * 2, false)
    else if value = 4 then (config ||| 1, false)
    else (config, true)
  let (_, c) ← configure_port config c
  .ok (config, printed, c)

/-- `SDIO.send_short(cmd_id, cmd_arg)`: command `0x05` (the dead `0x04`
assignment in the source is immediately overwritten), little-endian header,
4 reply bytes on status 1, `None` otherwise. -/
def send_short (cmd_id cmd_arg : Nat) (c : Conn) : Except Err (Option (List Nat) × Conn) := do
  let cb ← toBytesLE 0b00000101 1 c
  let c := c.writeBytes cb
  let ib ← toBytesLE cmd_id 1 c
  let c := c.writeBytes ib
  let ab ← toBytesLE cmd_arg 4 c
  let c := c.writeBytes ab
  let (sb, c) ← c.readBytes 1
  if fromBytesLE sb = 1 then
    let (d, c) ← c.readBytes 4
    .ok (some d, c)
  else
    .ok (none, c)

/-- `SDIO.send_long(cmd_id, cmd_arg)`: command `0x06`, 16 reply bytes on
status 1, `None` otherwise. -/
def send_long (cmd_id cmd_arg : Nat) (c : Conn) : Except Err (Option (List Nat) × Conn) := do
  let cb ← toBytesLE 0b00000110 1 c
  let c := c.writeBytes cb
  let ib ← toBytesLE cmd_id 1 c
  let c := c.writeBytes ib
  let ab ← toBytesLE cmd_arg 4 c
  let c := c.writeBytes ab
  let (sb, c) ← c.readBytes 1
  if fromBytesLE sb = 1 then
    let (d, c) ← c.readBytes 16
    .ok (some d, c)
  else
    .ok (none, c)

/-- `SDIO.write(cmd_id, cmd_arg, data)`: big-endian command byte `0x09`,
little-endian id/argument, payload verbatim, one status byte. -/
def write (cmd_id cmd_arg : Nat) (data : List Nat) (c : Conn) : Except Err (Bool × Conn) := do
  let cb ← toBytesBE 0b00001001 1 c
  let c := c.writeBytes cb
  let ib ← toBytesLE cmd_id 1 c
  let c := c.writeBytes ib
  let ab ← toBytesLE cmd_arg 4 c
  let c := c.writeBytes ab
  let c := c.writeBytes data
  let (sb, c) ← c.readBytes 1
  .ok (fromBytesLE sb = 1, c)

end SDIO

namespace NFC

/-- `NFC.write(data, crc)`: command `0x05`, the 1-byte CRC flag, the 1-byte
payload length (Python `len(data).to_bytes(1, "big")`, which overflows for
payloads longer than 255), the payload, then a length-prefixed reply. -/
def write (data : List Nat) (crc : Nat) (c : Conn) : Except Err (List Nat × Conn) := do
  let cb ← toBytesBE 0b00000101 1 c
  let c := c.writeBytes cb
  let crcb ← toBytesBE crc 1 c
  let c := c.writeBytes crcb
  let lb ← toBytesBE data.length 1 c
  let c := c.writeBytes lb
  let c := c.writeBytes data
  let (rlb, c) ← c.readBytes 1
  let (reply, c) ← c.readBytes (fromBytesLE rlb)
  .ok (reply, c)

end NFC

/-- Scripted acknowledgment bits for a responder that answers WAIT (2) to
the first `n` attempts — granting each intervening ABORT write an OK — and
OK (1) to the last: per WAIT, bits `0,1,0` for the transaction then `1,0,0`
for the ABORT. -/
def waitBits : Nat → List Nat
  | 0 => [1, 0, 0]
  | n + 1 => 0 :: 1 :: 0 :: 1 :: 0 :: 0 :: waitBits n

/-- The wire trace of `read_dp` against `waitBits n`: per WAIT the command
byte, the sync and exactly one ABORT write, then the final OK transaction. -/
def read_wait_trace (cmd : Nat) : Nat → List WireEvent
  | 0 => [.wbytes [cmd], .wbytes [0]]
  | n + 1 => [.wbytes [cmd], .wbytes [0], .wbytes [0x81], .wclocks 2,
      .wbytes [0x1F, 0, 0, 0], .wbytes [1]] ++ read_wait_trace cmd n

/-- The wire trace of `write_dp` against `waitBits n`: per WAIT the command
byte, 2 clocks, the sync and exactly one ABORT write, then the final OK
transaction with the value bytes and parity. -/
def write_wait_trace (cmd value : Nat) : Nat → List WireEvent
  | 0 => [.wbytes [cmd], .wclocks 2, .wbytes (natToLE 4 value),
      .wbytes (if popCount value % 2 = 1 then [1] else [0])]
  | n + 1 => [.wbytes [cmd], .wclocks 2, .wbytes [0], .wbytes [0x81], .wclocks 2,
      .wbytes [0x1F, 0, 0, 0], .wbytes [1]] ++ write_wait_trace cmd value n

/-! Helper lemmas for symbolic runs of the handlers. -/

theorem toBytesLE_one {v : Nat} (h : v < 256) (c : Conn) :
    toBytesLE v 1 c = .ok [v] := by
  simp [toBytesLE, natToLE, Nat.mod_eq_of_lt h, h]

theorem toBytesBE_one {v : Nat} (h : v < 256) (c : Conn) :
    toBytesBE v 1 c = .ok [v] := by
  simp [toBytesBE, natToLE, Nat.mod_eq_of_lt h, h]

theorem readBytes_cons_one (b : Nat) (rest bits : List Nat) (tx : List WireEvent) :
    Conn.readBytes ⟨b :: rest, bits, tx⟩ 1 = .ok ([b], ⟨rest, bits, tx⟩) := by
  simp [Conn.readBytes]

theorem or_lt_256 {a b : Nat} (ha : a < 256) (hb : b < 256) : a ||| b < 256 := by
  have ha8 : a < 2 ^ 8 := by simpa using ha
  have hb8 : b < 2 ^ 8 := by simpa using hb
  simpa using Nat.or_lt_two_pow ha8 hb8

theorem toBytesLE_four {v : Nat} (h : v < 256 ^ 4) (c : Conn) :
    toBytesLE v 4 c = .ok (natToLE 4 v) := by
  unfold toBytesLE
  rw [if_pos h]

theorem toBytesBE_four {v : Nat} (h : v < 256 ^ 4) (c : Conn) :
    toBytesBE v 4 c = .ok (natToLE 4 v).reverse := by
  unfold toBytesBE
  rw [if_pos h]

theorem ok_bind {α β : Type} (a : α) (f : α → Except Err β) :
    (Except.ok a : Except Err α) >>= f = f a := rfl

theorem error_bind {α β : Type} (e : Err) (f : α → Except Err β) :
    (Except.error e : Except Err α) >>= f = Except.error e := rfl

theorem readBytes_ok {n : Nat} {bytes : List Nat} (h : n ≤ bytes.length)
    (bits : List Nat) (tx : List WireEvent) :
    Conn.readBytes ⟨bytes, bits, tx⟩ n = .ok (bytes.take n, ⟨bytes.drop n, bits, tx⟩) := by
  simp [Conn.readBytes, h]

theorem fromBytesLE_single (b : Nat) : fromBytesLE [b] = b := by
  simp [fromBytesLE]

theorem and12_le (addr : Nat) : addr &&& 12 ≤ 12 :=
  Nat.and_le_right

theorem apply_dp_parity_lt {v : Nat} (h : v < 256) : SWD.apply_dp_parity v < 256 := by
  unfold SWD.apply_dp_parity
  dsimp only
  split
  · exact or_lt_256 h (by decide)
  · exact h

theorem cmd_lt_256 (base : Nat) {to_ap : Nat} (hb : base < 256) (hap : to_ap ≤ 1) (addr : Nat) :
    SWD.apply_dp_parity (base ||| to_ap <<< 1 ||| (addr &&& 12) <<< 1) < 256 := by
  have h1 : to_ap <<< 1 < 256 := by
    rw [Nat.shiftLeft_eq]
    omega
  have h2 : (addr &&& 12) <<< 1 < 256 := by
    have := and12_le addr
    rw [Nat.shiftLeft_eq]
    omega
  exact apply_dp_parity_lt (or_lt_256 (or_lt_256 hb h1) h2)

/-- One successful `read_dp` transaction: OK status bits `1,0,0`, four data
bytes, sync. -/
theorem read_dp_ok_step (fuel addr to_ap : Nat) (hap : to_ap ≤ 1)
    (d0 d1 d2 d3 : Nat) (bytes bits : List Nat) (tx : List WireEvent) :
    SWD.read_dp (fuel + 1) addr to_ap ⟨d0 :: d1 :: d2 :: d3 :: bytes, 1 :: 0 :: 0 :: bits, tx⟩ =
      .ok (fromBytesLE [d0, d1, d2, d3],
        ⟨bytes, bits,
          tx ++ [.wbytes [SWD.apply_dp_parity (0x85 ||| to_ap <<< 1 ||| (addr &&& 12) <<< 1)],
            .wbytes [0]]⟩) := by
  have hcmd := cmd_lt_256 0x85 (by norm_num) hap addr
  simp [SWD.read_dp, toBytesLE_one hcmd, SWD.read_status3, Conn.readBit,
    Conn.readBytes, SWD.sync, Conn.writeBytes, fromBytesLE, ok_bind, error_bind]

/-- A `read_dp` transaction acknowledged with a status other than 1 or 2:
sync, then the protocol error carrying the status. -/
theorem read_dp_err_step (fuel addr to_ap : Nat) (hap : to_ap ≤ 1)
    (b0 b1 b2 : Nat) (h1 : b0 + b1 * 2 + b2 * 4 ≠ 1) (h2 : b0 + b1 * 2 + b2 * 4 ≠ 2)
    (bytes bits : List Nat) (tx : List WireEvent) :
    SWD.read_dp (fuel + 1) addr to_ap ⟨bytes, b0 :: b1 :: b2 :: bits, tx⟩ =
      .error (.protocol (b0 + b1 * 2 + b2 * 4)
        ⟨bytes, bits,
          tx ++ [.wbytes [SWD.apply_dp_parity (0x85 ||| to_ap <<< 1 ||| (addr &&& 12) <<< 1)],
            .wbytes [0]]⟩) := by
  have hcmd := cmd_lt_256 0x85 (by norm_num) hap addr
  simp [SWD.read_dp, toBytesLE_one hcmd, SWD.read_status3, Conn.readBit,
    h1, h2, SWD.sync, Conn.writeBytes, ok_bind, error_bind]

/-- One successful `write_dp` transaction with status check on: OK status,
2 clocks, the 4 little-endian value bytes, the value parity byte. -/
theorem write_dp_ok_step (fuel addr value to_ap : Nat) (hap : to_ap ≤ 1)
    (hval : value < 256 ^ 4) (bytes bits : List Nat) (tx : List WireEvent) :
    SWD.write_dp (fuel + 1) addr value to_ap false ⟨bytes, 1 :: 0 :: 0 :: bits, tx⟩ =
      .ok ⟨bytes, bits,
        tx ++ [.wbytes [SWD.apply_dp_parity (0x81 ||| to_ap <<< 1 ||| (addr &&& 12) <<< 1)],
          .wclocks 2, .wbytes (natToLE 4 value),
          .wbytes (if popCount value % 2 = 1 then [1] else [0])]⟩ := by
  have hcmd := cmd_lt_256 0x81 (by norm_num) hap addr
  simp [SWD.write_dp, toBytesLE_one hcmd, SWD.read_status3, Conn.readBit,
    SWD.write_dp_tail, toBytesLE_four hval, Conn.clocks, Conn.writeBytes,
    ok_bind, error_bind]
  split <;> simp

/-- A `write_dp` transaction (status check on) acknowledged with a status
other than 1 or 2: sync, then the protocol error carrying the status. -/
theorem write_dp_err_step (fuel addr value to_ap : Nat) (hap : to_ap ≤ 1)
    (b0 b1 b2 : Nat) (h1 : b0 + b1 * 2 + b2 * 4 ≠ 1) (h2 : b0 + b1 * 2 + b2 * 4 ≠ 2)
    (bytes bits : List Nat) (tx : List WireEvent) :
    SWD.write_dp (fuel + 1) addr value to_ap false ⟨bytes, b0 :: b1 :: b2 :: bits, tx⟩ =
      .error (.protocol (b0 + b1 * 2 + b2 * 4)
        ⟨bytes, bits,
          tx ++ [.wbytes [SWD.apply_dp_parity (0x81 ||| to_ap <<< 1 ||| (addr &&& 12) <<< 1)],
            .wclocks 2, .wbytes [0]]⟩) := by
  have hcmd := cmd_lt_256 0x81 (by norm_num) hap addr
  simp [SWD.write_dp, toBytesLE_one hcmd, SWD.read_status3, Conn.readBit,
    h1, h2, SWD.sync, Conn.clocks, Conn.writeBytes, ok_bind, error_bind]

theorem fromBytesLE_four_bytes (d0 d1 d2 d3 : Nat) :
    fromBytesLE [d0, d1, d2, d3] = d0 + 256 * d1 + 65536 * d2 + 16777216 * d3 := by
  simp [fromBytesLE]
  ring


/-- Reading the three acknowledgment bits from a scripted bit stream. -/
theorem read_status3_cons (b0 b1 b2 : Nat) (rest bytes : List Nat) (tx : List WireEvent) :
    SWD.read_status3 ⟨bytes, b0 :: b1 :: b2 :: rest, tx⟩ =
      .ok (b0 + b1 * 2 + b2 * 4, ⟨bytes, rest, tx⟩) := by
  simp [SWD.read_status3, Conn.readBit, ok_bind]

/-- The ABORT transaction `write_dp(0, 0x1F)` issued on a WAIT, acknowledged
OK: command byte `0x81`, 2 clocks, the value `0x1F` little-endian, parity 1. -/
theorem write_dp_abort_step (fuel : Nat) (bytes bits : List Nat) (tx : List WireEvent) :
    SWD.write_dp (fuel + 1) 0 0x1F 0 false ⟨bytes, 1 :: 0 :: 0 :: bits, tx⟩ =
      .ok ⟨bytes, bits,
        tx ++ [.wbytes [0x81], .wclocks 2, .wbytes [0x1F, 0, 0, 0], .wbytes [1]]⟩ := by
  rw [write_dp_ok_step fuel 0 0x1F 0 (by norm_num) (by norm_num) bytes bits tx]
  simp [(by decide : SWD.apply_dp_parity 129 = 129),
    (by decide : natToLE 4 (31 : Nat) = [31, 0, 0, 0]),
    (by decide : popCount 31 % 2 = 1)]

/-- A WAIT-acknowledged `read_dp` with an OK-acknowledged ABORT: the
transaction reduces to a retry with one fuel fewer, after the command byte,
the sync and exactly one ABORT write appear on the wire. -/
theorem read_dp_wait_step (fuel addr to_ap : Nat) (hap : to_ap ≤ 1)
    (bytes bits : List Nat) (tx : List WireEvent) :
    SWD.read_dp (fuel + 2) addr to_ap ⟨bytes, 0 :: 1 :: 0 :: 1 :: 0 :: 0 :: bits, tx⟩ =
      SWD.read_dp (fuel + 1) addr to_ap ⟨bytes, bits,
        tx ++ [.wbytes [SWD.apply_dp_parity (0x85 ||| to_ap <<< 1 ||| (addr &&& 12) <<< 1)],
          .wbytes [0], .wbytes [0x81], .wclocks 2, .wbytes [0x1F, 0, 0, 0], .wbytes [1]]⟩ := by
  have hcmd := cmd_lt_256 0x85 (by norm_num) hap addr
  conv_lhs => rw [(by ring : fuel + 2 = (fuel + 1) + 1), SWD.read_dp]
  rw [toBytesLE_one hcmd]
  simp only [ok_bind, Conn.writeBytes, read_status3_cons]
  norm_num [SWD.sync, Conn.writeBytes, ok_bind, write_dp_abort_step]

/-- A WAIT-acknowledged `write_dp` (status check on) with an OK-acknowledged
ABORT: reduces to a retry with one fuel fewer after the command byte, the
2 clocks, the sync and exactly one ABORT write. -/
theorem write_dp_wait_step (fuel addr value to_ap : Nat) (hap : to_ap ≤ 1)
    (bytes bits : List Nat) (tx : List WireEvent) :
    SWD.write_dp (fuel + 2) addr value to_ap false ⟨bytes, 0 :: 1 :: 0 :: 1 :: 0 :: 0 :: bits, tx⟩ =
      SWD.write_dp (fuel + 1) addr value to_ap false ⟨bytes, bits,
        tx ++ [.wbytes [SWD.apply_dp_parity (0x81 ||| to_ap <<< 1 ||| (addr &&& 12) <<< 1)],
          .wclocks 2, .wbytes [0], .wbytes [0x81], .wclocks 2,
          .wbytes [0x1F, 0, 0, 0], .wbytes [1]]⟩ := by
  have hcmd := cmd_lt_256 0x81 (by norm_num) hap addr
  conv_lhs => rw [(by ring : fuel + 2 = (fuel + 1) + 1), SWD.write_dp]
  rw [toBytesLE_one hcmd]
  simp only [ok_bind, Conn.writeBytes, read_status3_cons, Conn.clocks]
  norm_num [SWD.sync, Conn.writeBytes, ok_bind, write_dp_abort_step]

/-! Claim theorems. -/

set_option maxRecDepth 4000 in
/-- C8: the DP parity rule is idempotent on every input byte — applying
`_apply_dp_parity` twice gives the same result as applying it once, because
the function reads only bits 1-4 and only ever sets bit 5. -/
theorem claim_C8 (v : Nat) (h : v < 256) :
    SWD.apply_dp_parity (SWD.apply_dp_parity v) = SWD.apply_dp_parity v := by
  revert h
  revert v
  decide

/-- C8 witness at the concrete input 0x85. -/
theorem claim_C8_witness :
    SWD.apply_dp_parity (SWD.apply_dp_parity 0x85) = SWD.apply_dp_parity 0x85 :=
  claim_C8 0x85 (by decide)

/-- C1 counterexample: with config 0 and the invalid bus width 2, both
setters leave the config at 0, print the notice and raise nothing, but the
configure command byte `0x80` is still written to the adapter — the call is
not a no-op on the wire. -/
theorem claim_C1_counterexample :
    MMC.bus_width_set 0 2 ⟨[1], [], []⟩ =
      .ok (0, true, ⟨[], [], [.wbytes [0x80]]⟩) ∧
    SDIO.bus_width_set 0 2 ⟨[1], [], []⟩ =
      .ok (0, true, ⟨[], [], [.wbytes [0x80]]⟩) ∧
    ([.wbytes [0x80]] : List WireEvent) ≠ [] := by
  decide

/-- C1 amended: for every input value other than 1 or 4, the MMC and SDIO
bus_width setters print the invalid-value notice, leave the cached
configuration bitfield (bit 0 included) unchanged and raise no exception,
but still send a configure command `0x80 | config` with the unchanged
configuration to the adapter. -/
theorem claim_C1 (value config : Nat) (h1 : value ≠ 1) (h4 : value ≠ 4)
    (hc : config < 128) (r : Nat) (rest bits : List Nat) (tx : List WireEvent) :
    MMC.bus_width_set config value ⟨r :: rest, bits, tx⟩ =
      .ok (config, true, ⟨rest, bits, tx ++ [.wbytes [128 ||| config]]⟩) ∧
    SDIO.bus_width_set config value ⟨r :: rest, bits, tx⟩ =
      .ok (config, true, ⟨rest, bits, tx ++ [.wbytes [128 ||| config]]⟩) := by
  have hcmd : 128 ||| config < 256 := or_lt_256 (by norm_num) (by omega)
  constructor <;>
    simp [MMC.bus_width_set, SDIO.bus_width_set, MMC.configure_port,
      SDIO.configure_port, h1, h4, toBytesBE_one hcmd, readBytes_cons_one,
      Conn.writeBytes, Except.bind] <;>
    rfl

/-- C1 witness: bus width 2 with config 0 and an acknowledging adapter. -/
theorem claim_C1_witness :
    MMC.bus_width_set 0 2 ⟨[1], [], []⟩ =
      .ok (0, true, ⟨[], [], [.wbytes [128 ||| 0]]⟩) ∧
    SDIO.bus_width_set 0 2 ⟨[1], [], []⟩ =
      .ok (0, true, ⟨[], [], [.wbytes [128 ||| 0]]⟩) :=
  claim_C1 2 0 (by decide) (by decide) (by decide) 1 [] [] []

/-- C6: `send_short` and `send_long` return exactly 4 (respectively 16)
bytes read from the connection when the status byte equals 1, and `None` on
any other status — never a zero-filled or partial buffer. -/
theorem claim_C6 (cmd_id cmd_arg : Nat) (hid : cmd_id < 256) (harg : cmd_arg < 256 ^ 4)
    (s : Nat) (hs : s ≠ 1) (rest bits : List Nat) (tx : List WireEvent)
    (h4 : 4 ≤ rest.length) (h16 : 16 ≤ rest.length) :
    ( SDIO.send_short cmd_id cmd_arg ⟨1 :: rest, bits, tx⟩ =
        .ok (some (rest.take 4), ⟨rest.drop 4, bits,
          tx ++ [.wbytes [5], .wbytes [cmd_id], .wbytes (natToLE 4 cmd_arg)]⟩) ∧
      (rest.take 4).length = 4) ∧
    SDIO.send_short cmd_id cmd_arg ⟨s :: rest, bits, tx⟩ =
      .ok (none, ⟨rest, bits,
        tx ++ [.wbytes [5], .wbytes [cmd_id], .wbytes (natToLE 4 cmd_arg)]⟩) ∧
    ( SDIO.send_long cmd_id cmd_arg ⟨1 :: rest, bits, tx⟩ =
        .ok (some (rest.take 16), ⟨rest.drop 16, bits,
          tx ++ [.wbytes [6], .wbytes [cmd_id], .wbytes (natToLE 4 cmd_arg)]⟩) ∧
      (rest.take 16).length = 16) ∧
    SDIO.send_long cmd_id cmd_arg ⟨s :: rest, bits, tx⟩ =
      .ok (none, ⟨rest, bits,
        tx ++ [.wbytes [6], .wbytes [cmd_id], .wbytes (natToLE 4 cmd_arg)]⟩) := by
  refine ⟨⟨?_, by rw [List.length_take]; omega⟩, ?_,
    ⟨?_, by rw [List.length_take]; omega⟩, ?_⟩ <;>
    simp [ SDIO.send_short, SDIO.send_long, toBytesLE_one, hid, harg,
      toBytesLE_four harg, readBytes_cons_one, readBytes_ok, h4, h16,
      fromBytesLE_single, hs, Conn.writeBytes, Conn.readBytes, ok_bind,
      error_bind]

/-- C6 witness: status 1 returns the 4/16 reply bytes, status 0 returns
`None`, on a stream of 16 distinct bytes. -/
theorem claim_C6_witness :
    ( SDIO.send_short 8 0x1AA ⟨1 :: [10,11,12,13,14,15,16,17,18,19,20,21,22,23,24,25], [], []⟩ =
        .ok (some [10,11,12,13], ⟨[14,15,16,17,18,19,20,21,22,23,24,25], [],
          [.wbytes [5], .wbytes [8], .wbytes (natToLE 4 0x1AA)]⟩) ∧
      ([10,11,12,13,14,15,16,17,18,19,20,21,22,23,24,25].take 4).length = 4) ∧
    SDIO.send_short 8 0x1AA ⟨0 :: [10,11,12,13,14,15,16,17,18,19,20,21,22,23,24,25], [], []⟩ =
      .ok (none, ⟨[10,11,12,13,14,15,16,17,18,19,20,21,22,23,24,25], [],
        [.wbytes [5], .wbytes [8], .wbytes (natToLE 4 0x1AA)]⟩) ∧
    ( SDIO.send_long 8 0x1AA ⟨1 :: [10,11,12,13,14,15,16,17,18,19,20,21,22,23,24,25], [], []⟩ =
        .ok (some [10,11,12,13,14,15,16,17,18,19,20,21,22,23,24,25], ⟨[], [],
          [.wbytes [6], .wbytes [8], .wbytes (natToLE 4 0x1AA)]⟩) ∧
      ([10,11,12,13,14,15,16,17,18,19,20,21,22,23,24,25].take 16).length = 16) ∧
    SDIO.send_long 8 0x1AA ⟨0 :: [10,11,12,13,14,15,16,17,18,19,20,21,22,23,24,25], [], []⟩ =
      .ok (none, ⟨[10,11,12,13,14,15,16,17,18,19,20,21,22,23,24,25], [],
        [.wbytes [6], .wbytes [8], .wbytes (natToLE 4 0x1AA)]⟩) :=
  claim_C6 8 0x1AA (by decide) (by decide) 0 (by decide)
    [10,11,12,13,14,15,16,17,18,19,20,21,22,23,24,25] [] []
    (by decide) (by decide)

/-- C7: MMC `read` writes command `0x04` and the block number as 4
big-endian bytes, reads one status byte, reads the 512-byte payload only on
status 1 and returns it; on any other status it returns the empty byte
sequence. -/
theorem claim_C7 (bn : Nat) (hbn : bn < 256 ^ 4) (s : Nat) (hs : s ≠ 1)
    (rest bits : List Nat) (tx : List WireEvent) (h : 512 ≤ rest.length) :
    (MMC.read bn ⟨1 :: rest, bits, tx⟩ =
        .ok (rest.take 512, ⟨rest.drop 512, bits,
          tx ++ [.wbytes [4], .wbytes (natToLE 4 bn).reverse]⟩) ∧
      (rest.take 512).length = 512) ∧
    MMC.read bn ⟨s :: rest, bits, tx⟩ =
      .ok ([], ⟨rest, bits, tx ++ [.wbytes [4], .wbytes (natToLE 4 bn).reverse]⟩) := by
  refine ⟨⟨?_, by rw [List.length_take]; omega⟩, ?_⟩ <;>
    simp [MMC.read, toBytesBE_one, toBytesBE_four hbn, readBytes_cons_one,
      readBytes_ok, h, fromBytesLE_single, hs, Conn.writeBytes, Conn.readBytes,
      ok_bind, error_bind]

set_option maxRecDepth 20000 in
/-- C7 witness: block 0 with an OK status on a 512-byte stream, and a
failing status 0. -/
theorem claim_C7_witness :
    (MMC.read 0 ⟨1 :: List.replicate 512 7, [], []⟩ =
        .ok ((List.replicate 512 7).take 512, ⟨(List.replicate 512 7).drop 512, [],
          [.wbytes [4], .wbytes (natToLE 4 0).reverse]⟩) ∧
      ((List.replicate 512 7).take 512).length = 512) ∧
    MMC.read 0 ⟨0 :: List.replicate 512 7, [], []⟩ =
      .ok ([], ⟨List.replicate 512 7, [], [.wbytes [4], .wbytes (natToLE 4 0).reverse]⟩) :=
  claim_C7 0 (by decide) 0 (by decide) (List.replicate 512 7) [] [] (by simp)

/-- C9: NFC `write` with a payload longer than 255 bytes fails with an
overflow error while encoding the 1-byte length field, after the command
byte `0x05` and the CRC flag byte have already been written to the
connection — the adapter receives a truncated command frame. -/
theorem claim_C9 (data : List Nat) (h : 255 < data.length) (crc : Nat)
    (hcrc : crc < 256) (rx bits : List Nat) (tx : List WireEvent) :
    NFC.write data crc ⟨rx, bits, tx⟩ =
      .error (.overflow ⟨rx, bits, tx ++ [.wbytes [5], .wbytes [crc]]⟩) := by
  have hlen : ¬ data.length < 256 := by omega
  simp [NFC.write, toBytesBE, hcrc, hlen, natToLE,
    Nat.mod_eq_of_lt hcrc, Conn.writeBytes, ok_bind, error_bind]

set_option maxRecDepth 20000 in
/-- C9 witness: a 256-byte payload. -/
theorem claim_C9_witness :
    NFC.write (List.replicate 256 0xAA) 0 ⟨[], [], []⟩ =
      .error (.overflow ⟨[], [], [.wbytes [5], .wbytes [0]]⟩) :=
  claim_C9 (List.replicate 256 0xAA) (by simp) 0 (by decide) [] [] []

/-- C10: MMC `write` and SDIO `write` perform no length validation: for a
payload of any length they transmit the command header then the data
verbatim, read one status byte, and return `True` exactly when it is 1. -/
theorem claim_C10 (data : List Nat) (bn : Nat) (hbn : bn < 256 ^ 4)
    (cmd_id cmd_arg : Nat) (hid : cmd_id < 256) (harg : cmd_arg < 256 ^ 4)
    (s : Nat) (rest bits : List Nat) (tx : List WireEvent) :
    MMC.write data bn ⟨s :: rest, bits, tx⟩ =
      .ok (decide (s = 1), ⟨rest, bits,
        tx ++ [.wbytes [5], .wbytes (natToLE 4 bn).reverse, .wbytes data]⟩) ∧
    SDIO.write cmd_id cmd_arg data ⟨s :: rest, bits, tx⟩ =
      .ok (decide (s = 1), ⟨rest, bits,
        tx ++ [.wbytes [9], .wbytes [cmd_id], .wbytes (natToLE 4 cmd_arg), .wbytes data]⟩) := by
  constructor <;>
    simp [MMC.write, SDIO.write, toBytesBE_one, toBytesLE_one, hid,
      toBytesBE_four hbn, toBytesLE_four harg, readBytes_cons_one,
      fromBytesLE_single, Conn.writeBytes, ok_bind, error_bind]

/-- C10 witness: a 3-byte (non-512) payload, status 1. -/
theorem claim_C10_witness :
    MMC.write [1, 2, 3] 9 ⟨[1], [], []⟩ =
      .ok (decide (1 = 1), ⟨[], [],
        [.wbytes [5], .wbytes (natToLE 4 9).reverse, .wbytes [1, 2, 3]]⟩) ∧
    SDIO.write 17 9 [1, 2, 3] ⟨[1], [], []⟩ =
      .ok (decide (1 = 1), ⟨[], [],
        [.wbytes [9], .wbytes [17], .wbytes (natToLE 4 9), .wbytes [1, 2, 3]]⟩) :=
  claim_C10 [1, 2, 3] 9 (by decide) 17 9 (by decide) (by decide) 1 [] [] []

/-- C2: `read_dp` transmits the parity-completed command byte built from
`0x85`, the AP flag and address bits 2-3, accumulates the 3-bit status
LSB-first, and on status 1 reads 4 bytes, interprets them little-endian,
sends a sync byte and returns the value.  Stated for every fuel bound, every
address and both AP flags. -/
theorem claim_C2 (fuel addr to_ap : Nat) (hap : to_ap ≤ 1) (d0 d1 d2 d3 : Nat)
    (bytes bits : List Nat) (tx : List WireEvent) :
    SWD.read_dp (fuel + 1) addr to_ap
        ⟨d0 :: d1 :: d2 :: d3 :: bytes, 1 :: 0 :: 0 :: bits, tx⟩ =
      .ok (d0 + 256 * d1 + 65536 * d2 + 16777216 * d3,
        ⟨bytes, bits,
          tx ++ [.wbytes [SWD.apply_dp_parity (0x85 ||| to_ap <<< 1 ||| (addr &&& 0b1100) <<< 1)],
            .wbytes [0]]⟩) := by
  simpa [fromBytesLE_four_bytes] using
    read_dp_ok_step fuel addr to_ap hap d0 d1 d2 d3 bytes bits tx

/-- C2 witness: reading RDBUFF (address 0xC) with bytes 0x78 0x56 0x34 0x12
returns 0x12345678. -/
theorem claim_C2_witness :
    SWD.read_dp (0 + 1) 0xC 0
        ⟨0x78 :: 0x56 :: 0x34 :: 0x12 :: [], 1 :: 0 :: 0 :: [], []⟩ =
      .ok (0x78 + 256 * 0x56 + 65536 * 0x34 + 16777216 * 0x12,
        ⟨[], [],
          [] ++ [.wbytes [SWD.apply_dp_parity (0x85 ||| 0 <<< 1 ||| (0xC &&& 0b1100) <<< 1)],
            .wbytes [0]]⟩) :=
  claim_C2 0 0xC 0 (by decide) 0x78 0x56 0x34 0x12 [] [] []

/-- C4: a `read_dp` or `write_dp` (status check on) transaction whose 3-bit
acknowledgment status is neither 1 nor 2 sends a sync byte and fails with
the protocol error carrying the raw status, returning no result. -/
theorem claim_C4 (fuel addr value to_ap b0 b1 b2 : Nat) (hap : to_ap ≤ 1)
    (h1 : b0 + b1 * 2 + b2 * 4 ≠ 1) (h2 : b0 + b1 * 2 + b2 * 4 ≠ 2)
    (bytes bits : List Nat) (tx : List WireEvent) :
    SWD.read_dp (fuel + 1) addr to_ap ⟨bytes, b0 :: b1 :: b2 :: bits, tx⟩ =
      .error (.protocol (b0 + b1 * 2 + b2 * 4)
        ⟨bytes, bits,
          tx ++ [.wbytes [SWD.apply_dp_parity (0x85 ||| to_ap <<< 1 ||| (addr &&& 0b1100) <<< 1)],
            .wbytes [0]]⟩) ∧
    SWD.write_dp (fuel + 1) addr value to_ap false ⟨bytes, b0 :: b1 :: b2 :: bits, tx⟩ =
      .error (.protocol (b0 + b1 * 2 + b2 * 4)
        ⟨bytes, bits,
          tx ++ [.wbytes [SWD.apply_dp_parity (0x81 ||| to_ap <<< 1 ||| (addr &&& 0b1100) <<< 1)],
            .wclocks 2, .wbytes [0]]⟩) :=
  ⟨read_dp_err_step fuel addr to_ap hap b0 b1 b2 h1 h2 bytes bits tx,
   write_dp_err_step fuel addr value to_ap hap b0 b1 b2 h1 h2 bytes bits tx⟩

/-- C4 witness: status 4 (FAULT), bits 0,0,1. -/
theorem claim_C4_witness :
    SWD.read_dp (0 + 1) 0 0 ⟨[], 0 :: 0 :: 1 :: [], []⟩ =
      .error (.protocol (0 + 0 * 2 + 1 * 4)
        ⟨[], [],
          [] ++ [.wbytes [SWD.apply_dp_parity (0x85 ||| 0 <<< 1 ||| (0 &&& 0b1100) <<< 1)],
            .wbytes [0]]⟩) ∧
    SWD.write_dp (0 + 1) 0 0x1F 0 false ⟨[], 0 :: 0 :: 1 :: [], []⟩ =
      .error (.protocol (0 + 0 * 2 + 1 * 4)
        ⟨[], [],
          [] ++ [.wbytes [SWD.apply_dp_parity (0x81 ||| 0 <<< 1 ||| (0 &&& 0b1100) <<< 1)],
            .wclocks 2, .wbytes [0]]⟩) :=
  claim_C4 0 0 0x1F 0 0 0 1 (by decide) (by decide) (by decide) [] [] []

/-- C5: `read_ap` performs exactly three DP transactions in order — the
SELECT write of `(index << 24) | (bank & 0xF0)` to DP register 8, the dummy
AP-targeted read of DP address `bank & 0b1100` whose bytes `d0..d3` are
discarded, and the RDBUFF (0xC) read — and returns the RDBUFF bytes
`e0..e3`, not the dummy read's value. -/
theorem claim_C5 (fuel address bank : Nat) (ha : address < 256)
    (d0 d1 d2 d3 e0 e1 e2 e3 : Nat) (tx : List WireEvent) :
    SWD.read_ap (fuel + 1) address bank
        ⟨[d0, d1, d2, d3, e0, e1, e2, e3], [1, 0, 0, 1, 0, 0, 1, 0, 0], tx⟩ =
      .ok (e0 + 256 * e1 + 65536 * e2 + 16777216 * e3,
        ⟨[], [], tx ++
          [.wbytes [0xB1], .wclocks 2,
           .wbytes (natToLE 4 (address <<< 24 ||| (bank &&& 0b11110000))),
           .wbytes (if popCount (address <<< 24 ||| (bank &&& 0b11110000)) % 2 = 1
             then [1] else [0]),
           .wbytes [SWD.apply_dp_parity (0x85 ||| 1 <<< 1 ||| (bank &&& 0b1100) <<< 1)],
           .wbytes [0],
           .wbytes [0xBD], .wbytes [0]]⟩) := by
  have hsel : address <<< 24 ||| (bank &&& 0b11110000) < 256 ^ 4 := by
    have h1 : address <<< 24 < 2 ^ 32 := by
      rw [Nat.shiftLeft_eq]
      calc address * 2 ^ 24 < 256 * 2 ^ 24 :=
            (Nat.mul_lt_mul_right (by norm_num)).mpr ha
        _ = 2 ^ 32 := by norm_num
    have h2 : bank &&& 0b11110000 < 2 ^ 32 := by
      have := @Nat.and_le_right bank 0b11110000
      omega
    have h := Nat.or_lt_two_pow h1 h2
    norm_num at h ⊢
    exact h
  have hasq : bank &&& 0b1100 &&& 0b1100 = bank &&& 0b1100 := by
    rw [Nat.and_assoc, (by decide : (0b1100 &&& 0b1100 : Nat) = 0b1100)]
  simp only [SWD.read_ap]
  rw [write_dp_ok_step fuel 8 (address <<< 24 ||| (bank &&& 0b11110000)) 0
      (by norm_num) hsel, ok_bind,
    read_dp_ok_step fuel (bank &&& 0b1100) 1 (by norm_num), ok_bind,
    read_dp_ok_step fuel 0xC 0 (by norm_num)]
  simp [fromBytesLE_four_bytes, hasq]
  decide

/-- C5 witness: AP 0, bank 0xFC (the IDR read of `scan_bus`), dummy bytes
1,2,3,4 and RDBUFF bytes 5,6,7,8. -/
theorem claim_C5_witness :
    SWD.read_ap (0 + 1) 0 0xFC
        ⟨[1, 2, 3, 4, 5, 6, 7, 8], [1, 0, 0, 1, 0, 0, 1, 0, 0], []⟩ =
      .ok (5 + 256 * 6 + 65536 * 7 + 16777216 * 8,
        ⟨[], [], [] ++
          [.wbytes [0xB1], .wclocks 2,
           .wbytes (natToLE 4 (0 <<< 24 ||| (0xFC &&& 0b11110000))),
           .wbytes (if popCount (0 <<< 24 ||| (0xFC &&& 0b11110000)) % 2 = 1
             then [1] else [0]),
           .wbytes [SWD.apply_dp_parity (0x85 ||| 1 <<< 1 ||| (0xFC &&& 0b1100) <<< 1)],
           .wbytes [0],
           .wbytes [0xBD], .wbytes [0]]⟩) :=
  claim_C5 0 0 0xFC (by decide) 1 2 3 4 5 6 7 8 []

/-- C3: against a responder answering WAIT to the first `n` attempts (with
OK-acknowledged ABORTs) and OK to the last, `read_dp` and `write_dp` send a
sync and exactly one ABORT write (`0x1F` to DP register 0) per WAIT before
re-sending the identical command, and finally return the read value
(respectively complete the write) — with fuel `n + 1`, witnessing eventual
success. -/
theorem claim_C3 (n addr value to_ap : Nat) (hap : to_ap ≤ 1) (hval : value < 256 ^ 4)
    (d0 d1 d2 d3 : Nat) (tx : List WireEvent) :
    SWD.read_dp (n + 1) addr to_ap ⟨[d0, d1, d2, d3], waitBits n, tx⟩ =
      .ok (d0 + 256 * d1 + 65536 * d2 + 16777216 * d3,
        ⟨[], [], tx ++ read_wait_trace
          (SWD.apply_dp_parity (0x85 ||| to_ap <<< 1 ||| (addr &&& 0b1100) <<< 1)) n⟩) ∧
    SWD.write_dp (n + 1) addr value to_ap false ⟨[], waitBits n, tx⟩ =
      .ok ⟨[], [], tx ++ write_wait_trace
        (SWD.apply_dp_parity (0x81 ||| to_ap <<< 1 ||| (addr &&& 0b1100) <<< 1)) value n⟩ := by
  induction n generalizing tx with
  | zero =>
    constructor
    · simpa [waitBits, read_wait_trace, fromBytesLE_four_bytes] using
        read_dp_ok_step 0 addr to_ap hap d0 d1 d2 d3 [] [] tx
    · simpa [waitBits, write_wait_trace] using
        write_dp_ok_step 0 addr value to_ap hap hval [] [] tx
  | succ n ih =>
    constructor
    · rw [show n + 1 + 1 = n + 2 from rfl, waitBits,
        read_dp_wait_step n addr to_ap hap, (ih _).1, read_wait_trace]
      simp
    · rw [show n + 1 + 1 = n + 2 from rfl, waitBits,
        write_dp_wait_step n addr value to_ap hap, (ih _).2, write_wait_trace]
      simp

/-- C3 witness: one WAIT then OK, address 4, value 5, fuel 2. -/
theorem claim_C3_witness :
    SWD.read_dp (1 + 1) 4 0 ⟨[9, 0, 0, 0], waitBits 1, []⟩ =
      .ok (9 + 256 * 0 + 65536 * 0 + 16777216 * 0,
        ⟨[], [], [] ++ read_wait_trace
          (SWD.apply_dp_parity (0x85 ||| 0 <<< 1 ||| (4 &&& 0b1100) <<< 1)) 1⟩) ∧
    SWD.write_dp (1 + 1) 4 5 0 false ⟨[], waitBits 1, []⟩ =
      .ok ⟨[], [], [] ++ write_wait_trace
        (SWD.apply_dp_parity (0x81 ||| 0 <<< 1 ||| (4 &&& 0b1100) <<< 1)) 5 1⟩ :=
  claim_C3 1 4 5 0 (by decide) (by decide) 9 0 0 0 []

end PyHydrabus
